import Mathlib

/-!
Shallow embedding of `packages/core-api/src/apis/implementations/auth/google/GoogleAuth.ts`
(the Google identity client of the Backstage front-end).

Strings are Lean `String`s, JavaScript `Set<string>` is `Finset String`,
timestamps (`Date.now()`, `Date.getTime()`) are `Int` milliseconds passed
explicitly, JavaScript numbers in the refresh computation are `ℚ` (the
division `(expiresAt - now) / 1000` compared against `300` is exact in
IEEE-754 doubles for every integer millisecond difference, so `ℚ` and the
double computation decide `< 300` identically), and `Promise<T>` results
from the external session manager are `Option` values: `none` models the
manager resolving with no session.
-/

namespace GoogleAuth

/-- The source constant `SCOPE_PREFIX = 'https://www.googleapis.com/auth/'`
(renamed here), the namespace URL prepended to unqualified Google scopes. -/
def scopeNS : String := "https://www.googleapis.com/auth/"

/-- Embedding of JavaScript `String.prototype.startsWith`: the
character list of `p` is a prefix of the character list of `s`. -/
def strStartsWith (s p : String) : Bool :=
  p.data.isPrefixOf s.data

/-- The character class `[\s]` of the regular expression in
`scopes.split(/[\s]/)`: ECMAScript WhiteSpace and LineTerminator code
points (tab, LF, VT, FF, CR, space, NBSP, Ogham space, the U+2000..200A
range, LS, PS, NNBSP, MMSP, ideographic space, BOM). -/
def isJsWhitespace (c : Char) : Bool :=
  c.val = 9 || c.val = 10 || c.val = 11 || c.val = 12 || c.val = 13 ||
  c.val = 32 || c.val = 0xa0 || c.val = 0x1680 ||
  (0x2000 ≤ c.val && c.val ≤ 0x200a) ||
  c.val = 0x2028 || c.val = 0x2029 || c.val = 0x202f || c.val = 0x205f ||
  c.val = 0x3000 || c.val = 0xfeff

/-- Embedding of single-character-class `String.prototype.split`: cut the
character list at every character satisfying `p`; adjacent separators and
separators at either end produce empty fragments, exactly as in
JavaScript `split(/[\s]/)`. -/
def splitChars (p : Char → Bool) : List Char → List (List Char)
  | [] => [[]]
  | c :: cs =>
    if p c then
      [] :: splitChars p cs
    else
      match splitChars p cs with
      | [] => [[c]]
      | t :: ts => (c :: t) :: ts

/-- `scopes.split(/[\s]/).filter(Boolean)`: split on whitespace and drop
the empty fragments (`filter(Boolean)` keeps exactly the non-empty
strings). -/
def tokenizeScopes (s : String) : List String :=
  ((splitChars isJsWhitespace s.data).map (fun t => String.mk t)).filter
    (fun t => t ≠ "")

/-- The per-token arrow function inside `normalizeScopes`:
`openid` is kept, `profile`/`email` expand under `userinfo.`, tokens
already carrying the namespace are kept, and everything else gets the
namespace prepended. -/
def normalizeScope (scope : String) : String :=
  if scope = "openid" then
    scope
  else if scope = "profile" ∨ scope = "email" then
    scopeNS ++ "userinfo." ++ scope
  else if strStartsWith scope scopeNS then
    scope
  else
    scopeNS ++ scope

/-- The TypeScript argument type `scopes?: string | string[]` of
`normalizeScopes`. -/
inductive ScopesArg where
  | undef
  | str (s : String)
  | list (l : List String)
deriving DecidableEq

/-- JavaScript falsiness of the `scopes` argument as tested by
`if (!scopes)`: `undefined` and the empty string are falsy; every array
(even the empty one) is truthy. -/
def scopesFalsy : ScopesArg → Bool
  | .undef => true
  | .str s => s = ""
  | .list _ => false

/-- The `scopeList` local of `normalizeScopes`: arrays are used
element-by-element, strings are whitespace-tokenized. -/
def scopeList : ScopesArg → List String
  | .undef => []
  | .str s => tokenizeScopes s
  | .list l => l

/-- `GoogleAuth.normalizeScopes`: falsy input yields the empty set,
otherwise the token list is mapped through `normalizeScope` and collected
into a `Set`. -/
def normalizeScopes (scopes : ScopesArg) : Finset String :=
  if scopesFalsy scopes then
    ∅
  else
    ((scopeList scopes).map normalizeScope).toFinset

/-- The per-token rule of `normalizeScopes` as worded by the spec
(`"openid"` passes through; `"profile"`/`"email"` expand to
`"<namespace>userinfo.<token>"`; already-namespaced tokens pass through;
every other token gets the namespace prepended), kept separate from
`normalizeScope` for refinement comparison. -/
def specMapToken (t : String) : String :=
  if t = "openid" then "openid"
  else if t = "profile" then scopeNS ++ "userinfo.profile"
  else if t = "email" then scopeNS ++ "userinfo.email"
  else if strStartsWith t scopeNS then t
  else scopeNS ++ t

/-- The normalized `providerInfo` of a `GoogleSession` as built by
`sessionTransform`; `expiresAt` is the `Date` value in epoch
milliseconds (`Date.getTime()`). -/
structure SessionProviderInfo where
  idToken : String
  accessToken : String
  scopes : Finset String
  expiresAt : Int

/-- `GoogleSession`, generic over the external `ProfileInfo` (`π`) and
`BackstageIdentity` (`β`) types, which are declared outside the given
source file and flow through this file opaquely. -/
structure GoogleSession (π β : Type) where
  providerInfo : SessionProviderInfo
  profile : π
  backstageIdentity : β

/-- The `providerInfo` field of the raw `GoogleAuthResponse`. -/
structure ResponseProviderInfo where
  accessToken : String
  idToken : String
  scope : String
  expiresInSeconds : Int

/-- The raw `GoogleAuthResponse`, generic over the same external profile
and identity types. -/
structure GoogleAuthResponse (π β : Type) where
  providerInfo : ResponseProviderInfo
  profile : π
  backstageIdentity : β

variable {π β : Type}

/-- The `sessionTransform` closure passed to `DefaultAuthConnector` in
`GoogleAuth.create`: spread the raw response (so `profile` and
`backstageIdentity` carry over) and rebuild `providerInfo` with
normalized scopes and the absolute expiry
`Date.now() + expiresInSeconds * 1000`; `now` is the value of
`Date.now()` in milliseconds at transform time. -/
def sessionTransform (now : Int) (res : GoogleAuthResponse π β) :
    GoogleSession π β :=
  { providerInfo :=
      { idToken := res.providerInfo.idToken
        accessToken := res.providerInfo.accessToken
        scopes := normalizeScopes (.str res.providerInfo.scope)
        expiresAt := now + res.providerInfo.expiresInSeconds * 1000 }
    profile := res.profile
    backstageIdentity := res.backstageIdentity }

/-- The `sessionShouldRefresh` predicate passed to
`RefreshingAuthSessionManager` in `GoogleAuth.create`:
`(expiresAt.getTime() - Date.now()) / 1000 < 60 * 5`, with the
JavaScript number arithmetic carried out in `ℚ` (the source's
`expiresInSec` local is inlined). -/
def sessionShouldRefresh (now : Int) (session : GoogleSession π β) : Bool :=
  decide (((session.providerInfo.expiresAt - now : Int) : ℚ) / 1000 < 60 * 5)

/-- The `defaultScopes` set passed to `RefreshingAuthSessionManager` in
`GoogleAuth.create`. -/
def defaultScopes : Finset String :=
  {"openid", scopeNS ++ "userinfo.email", scopeNS ++ "userinfo.profile"}

/-- The argument of the external `sessionManager.getSession` call: the
`AuthRequestOptions` spread plus, for `getAccessToken`, the normalized
`scopes` set. Other option fields are opaque to this file and omitted. -/
structure GetSessionRequest where
  scopes : Option (Finset String)

/-- The external session manager collaborator, reduced to its
`getSession` resolution: an `Option` result models the promise resolving
with a session (`some`) or with no session (`none`). -/
def SessionManagerFn (π β : Type) : Type :=
  GetSessionRequest → Option (GoogleSession π β)

/-- `GoogleAuth.getAccessToken`: normalize the requested scopes, ask the
manager for a session, and project `session?.providerInfo.accessToken ?? ''`. -/
def getAccessToken (mgr : SessionManagerFn π β) (scope : ScopesArg) : String :=
  match mgr { scopes := some (normalizeScopes scope) } with
  | some session => session.providerInfo.accessToken
  | none => ""

/-- `GoogleAuth.getIdToken`: ask the manager for a session with the given
options (no scopes) and project `session?.providerInfo.idToken ?? ''`. -/
def getIdToken (mgr : SessionManagerFn π β) : String :=
  match mgr { scopes := none } with
  | some session => session.providerInfo.idToken
  | none => ""

/-- `GoogleAuth.getBackstageIdentity`: project `session?.backstageIdentity`
(`none` models `undefined`). -/
def getBackstageIdentity (mgr : SessionManagerFn π β) : Option β :=
  match mgr { scopes := none } with
  | some session => some session.backstageIdentity
  | none => none

/-- `GoogleAuth.getProfile`: project `session?.profile`
(`none` models `undefined`). -/
def getProfile (mgr : SessionManagerFn π β) : Option π :=
  match mgr { scopes := none } with
  | some session => some session.profile
  | none => none

/-! ### Helper lemmas -/

/-- A string formed by appending starts with its own stem. -/
theorem strStartsWith_stem (a b : String) : strStartsWith (a ++ b) a = true := by
  rw [strStartsWith, String.data_append, List.isPrefixOf_iff_prefix]
  exact List.prefix_append a.data b.data

/-- The source's per-token arrow function agrees pointwise with the
spec-worded rule. -/
theorem normalizeScope_eq_specMapToken (t : String) :
    normalizeScope t = specMapToken t := by
  by_cases h1 : t = "openid"
  · subst h1; decide
  by_cases h2 : t = "profile"
  · subst h2; decide
  by_cases h3 : t = "email"
  · subst h3; decide
  simp [normalizeScope, specMapToken, h1, h2, h3]

/-- Every value of `normalizeScope` is `"openid"` or carries the
namespace. -/
theorem normalizeScope_shape (t : String) :
    normalizeScope t = "openid" ∨
      strStartsWith (normalizeScope t) scopeNS = true := by
  unfold normalizeScope
  split_ifs with h1 h2 h3
  · left; exact h1
  · right
    rw [String.append_assoc]
    exact strStartsWith_stem scopeNS ("userinfo." ++ t)
  · right; exact h3
  · right; exact strStartsWith_stem scopeNS t

/-- `normalizeScope` fixes `"openid"` and every already-namespaced
token. -/
theorem normalizeScope_fixed (s : String)
    (h : s = "openid" ∨ strStartsWith s scopeNS = true) :
    normalizeScope s = s := by
  rcases h with rfl | h
  · decide
  unfold normalizeScope
  split_ifs with h1 h2
  · rfl
  · rcases h2 with rfl | rfl
    · exact absurd h (by decide)
    · exact absurd h (by decide)
  · rfl

/-- A falsy argument tokenizes to the empty list. -/
theorem scopesFalsy_scopeList (arg : ScopesArg) (h : scopesFalsy arg = true) :
    scopeList arg = [] := by
  cases arg with
  | undef => rfl
  | str s =>
    have hs : s = "" := by simpa [scopesFalsy] using h
    subst hs; decide
  | list l => simp [scopesFalsy] at h

/-- The falsy shortcut of `normalizeScopes` agrees with the general
map-and-collect formula. -/
theorem normalizeScopes_eq_map (arg : ScopesArg) :
    normalizeScopes arg = ((scopeList arg).map normalizeScope).toFinset := by
  by_cases h : scopesFalsy arg = true
  · simp [normalizeScopes, h, scopesFalsy_scopeList arg h]
  · simp [normalizeScopes, h]

/-- Membership in the normalized set is exactly being the image of some
token of the tokenized argument. -/
theorem mem_normalizeScopes (arg : ScopesArg) (s : String) :
    s ∈ normalizeScopes arg ↔ ∃ t ∈ scopeList arg, normalizeScope t = s := by
  rw [normalizeScopes_eq_map]
  simp [List.mem_toFinset, List.mem_map]

/-- Shape of an arbitrary element of a normalized scope set. -/
theorem elem_shape (arg : ScopesArg) (s : String)
    (h : s ∈ normalizeScopes arg) :
    s = "openid" ∨ strStartsWith s scopeNS = true := by
  rw [mem_normalizeScopes] at h
  obtain ⟨t, _, rfl⟩ := h
  exact normalizeScope_shape t

/-- When every character is a separator, every split fragment is empty. -/
theorem splitChars_all_sep (p : Char → Bool) (cs : List Char)
    (h : ∀ c ∈ cs, p c = true) : ∀ frag ∈ splitChars p cs, frag = [] := by
  induction cs with
  | nil =>
    intro frag hf
    simp only [splitChars, List.mem_singleton] at hf
    exact hf
  | cons c cs ih =>
    intro frag hf
    have hc : p c = true := h c (List.mem_cons_self c cs)
    simp only [splitChars, hc, if_true] at hf
    rcases List.mem_cons.mp hf with rfl | hf'
    · rfl
    · exact ih (fun x hx => h x (List.mem_cons_of_mem c hx)) frag hf'

/-- A whitespace-only string tokenizes to the empty list. -/
theorem tokenizeScopes_all_ws (s : String)
    (h : ∀ c ∈ s.data, isJsWhitespace c = true) : tokenizeScopes s = [] := by
  unfold tokenizeScopes
  rw [List.filter_eq_nil_iff]
  intro t ht
  rw [List.mem_map] at ht
  obtain ⟨frag, hfrag, rfl⟩ := ht
  have hnil : frag = [] := splitChars_all_sep _ _ h frag hfrag
  subst hnil
  simp

/-! ### Claim theorems -/

/-- C1: an element belongs to `normalizeScopes` exactly when it is the
image of some input token under the spec's per-token rule — `"openid"`
passes through, `"profile"`/`"email"` expand under `userinfo.`, tokens
already carrying the namespace pass through, and every other token gets
the namespace prepended — with the mapped tokens collected into a set
(duplicates collapsed, order irrelevant). -/
theorem normalizeScopes_per_token_rule (arg : ScopesArg) (s : String) :
    s ∈ normalizeScopes arg ↔ ∃ t ∈ scopeList arg, specMapToken t = s := by
  rw [mem_normalizeScopes]
  simp only [normalizeScope_eq_specMapToken]

/-- C2: every element of any normalized scope set is either exactly
`"openid"` or starts with the namespace
`"https://www.googleapis.com/auth/"`. -/
theorem normalizeScopes_element_invariant (arg : ScopesArg) (s : String)
    (h : s ∈ normalizeScopes arg) :
    s = "openid" ∨ strStartsWith s scopeNS = true :=
  elem_shape arg s h

/-- Witness for C2 at the input `"openid email"` and the element
`"https://www.googleapis.com/auth/userinfo.email"`. -/
theorem normalizeScopes_element_invariant_witness :
    "https://www.googleapis.com/auth/userinfo.email" = "openid" ∨
      strStartsWith "https://www.googleapis.com/auth/userinfo.email" scopeNS
        = true :=
  normalizeScopes_element_invariant (.str "openid email")
    "https://www.googleapis.com/auth/userinfo.email" (by decide)

/-- C3: when the session manager yields no session, `getAccessToken` and
`getIdToken` return the empty string and `getProfile` and
`getBackstageIdentity` return `none` (the model of `undefined`); all
four are total functions, so no error is raised for the absent-session
case. -/
theorem getters_no_session (mgr : SessionManagerFn π β) (scope : ScopesArg)
    (h : ∀ req, mgr req = none) :
    getAccessToken mgr scope = "" ∧ getIdToken mgr = "" ∧
    getProfile mgr = none ∧ getBackstageIdentity mgr = none := by
  refine ⟨?_, ?_, ?_, ?_⟩ <;>
    simp [getAccessToken, getIdToken, getProfile, getBackstageIdentity, h]

/-- Witness for C3 at the constantly-absent session manager. -/
theorem getters_no_session_witness :
    getAccessToken (fun _ => none : SessionManagerFn Unit Unit)
        (.str "email") = "" ∧
    getIdToken (fun _ => none : SessionManagerFn Unit Unit) = "" ∧
    getProfile (fun _ => none : SessionManagerFn Unit Unit) = none ∧
    getBackstageIdentity (fun _ => none : SessionManagerFn Unit Unit)
        = none :=
  getters_no_session (fun _ => none) (.str "email") (fun _ => rfl)

/-- C4: `normalizeScopes` is idempotent — re-normalizing any list
enumerating the elements of a normalized scope set returns that same
set. -/
theorem normalizeScopes_idempotent (arg : ScopesArg) (l : List String)
    (h : l.toFinset = normalizeScopes arg) :
    normalizeScopes (.list l) = normalizeScopes arg := by
  have hfix : ∀ x ∈ l, normalizeScope x = x := by
    intro x hx
    apply normalizeScope_fixed
    apply elem_shape arg
    rw [← h]
    exact List.mem_toFinset.mpr hx
  calc normalizeScopes (.list l)
      = (l.map normalizeScope).toFinset := by rw [normalizeScopes_eq_map]; rfl
    _ = l.toFinset := by rw [List.map_congr_left hfix]; simp
    _ = normalizeScopes arg := h

/-- Witness for C4: the already-qualified scope
`"https://www.googleapis.com/auth/custom.scope"` normalizes to itself. -/
theorem normalizeScopes_idempotent_witness :
    normalizeScopes (.list ["https://www.googleapis.com/auth/custom.scope"]) =
      normalizeScopes (.str "https://www.googleapis.com/auth/custom.scope") :=
  normalizeScopes_idempotent
    (.str "https://www.googleapis.com/auth/custom.scope")
    ["https://www.googleapis.com/auth/custom.scope"] (by decide)

/-- C5: no input — `undefined` or the empty string — yields the empty
set, which is not the default scope set. -/
theorem normalizeScopes_no_input :
    normalizeScopes .undef = ∅ ∧ normalizeScopes (.str "") = ∅ ∧
    normalizeScopes .undef ≠ defaultScopes ∧
    normalizeScopes (.str "") ≠ defaultScopes := by decide

/-- C6: for every raw provider response, the session transform sets the
expiry to the transform time plus `expiresInSeconds * 1000`
milliseconds; in particular a response with `expiresInSeconds = 600`
transformed at time `now` expires at `now + 600000`. -/
theorem sessionTransform_expiry (now : Int) (res : GoogleAuthResponse π β) :
    (sessionTransform now res).providerInfo.expiresAt =
        now + res.providerInfo.expiresInSeconds * 1000 ∧
    (res.providerInfo.expiresInSeconds = 600 →
      (sessionTransform now res).providerInfo.expiresAt = now + 600000) := by
  refine ⟨rfl, fun h => ?_⟩
  show now + res.providerInfo.expiresInSeconds * 1000 = now + 600000
  rw [h]; norm_num

/-- Witness for C6 at `now = 1000` and a concrete 600-second response,
discharging the instance hypothesis. -/
theorem sessionTransform_expiry_witness :
    (sessionTransform 1000 (⟨⟨"at", "it", "openid", 600⟩, (), ()⟩ :
        GoogleAuthResponse Unit Unit)).providerInfo.expiresAt =
      1000 + (600 : Int) * 1000 ∧
    (sessionTransform 1000 (⟨⟨"at", "it", "openid", 600⟩, (), ()⟩ :
        GoogleAuthResponse Unit Unit)).providerInfo.expiresAt =
      1000 + 600000 :=
  ⟨(sessionTransform_expiry 1000 _).1, (sessionTransform_expiry 1000 _).2 rfl⟩

/-- C7: the refresh predicate holds exactly when the session's expiry
lies less than 300 seconds (300000 ms) after the current time. -/
theorem sessionShouldRefresh_iff (now : Int) (session : GoogleSession π β) :
    sessionShouldRefresh now session = true ↔
      session.providerInfo.expiresAt - now < 300 * 1000 := by
  unfold sessionShouldRefresh
  rw [decide_eq_true_eq]
  rw [div_lt_iff₀ (by norm_num : (0:ℚ) < 1000)]
  rw [show ((60 : ℚ) * 5 * 1000) = ((300 * 1000 : Int) : ℚ) by norm_num]
  exact Int.cast_lt

/-- C8: the session transform passes the raw response's `profile` and
`backstageIdentity` through unchanged (only `providerInfo` is
rebuilt). -/
theorem sessionTransform_passthrough (now : Int)
    (res : GoogleAuthResponse π β) :
    (sessionTransform now res).profile = res.profile ∧
    (sessionTransform now res).backstageIdentity = res.backstageIdentity :=
  ⟨rfl, rfl⟩

/-- C9: the default scope set configured at construction is exactly the
three-element set of `"openid"` and the two fully-qualified `userinfo`
scopes. -/
theorem defaultScopes_spec :
    defaultScopes =
      ({"openid", "https://www.googleapis.com/auth/userinfo.email",
        "https://www.googleapis.com/auth/userinfo.profile"} : Finset String) ∧
    defaultScopes.card = 3 := by decide

/-- C10: string inputs are split on every whitespace character with
empty fragments discarded — a whitespace-only string yields the empty
set and the empty string is never an element — while a list input is
used element-by-element with no splitting, so the single element
`"openid email"` becomes the one prefixed scope
`"https://www.googleapis.com/auth/openid email"`. -/
theorem normalizeScopes_tokenization (s t : String)
    (hws : ∀ c ∈ s.data, isJsWhitespace c = true) :
    normalizeScopes (.str s) = ∅ ∧
    "" ∉ normalizeScopes (.str t) ∧
    normalizeScopes (.list ["openid email"]) =
      {"https://www.googleapis.com/auth/openid email"} ∧
    normalizeScopes (.str "a\tb c") =
      {"https://www.googleapis.com/auth/a",
       "https://www.googleapis.com/auth/b",
       "https://www.googleapis.com/auth/c"} := by
  refine ⟨?_, ?_, by decide, by decide⟩
  · rw [normalizeScopes_eq_map,
      show scopeList (.str s) = [] from tokenizeScopes_all_ws s hws]
    rfl
  · intro hmem
    rcases elem_shape _ _ hmem with h | h
    · exact absurd h (by decide)
    · exact absurd h (by decide)

/-- Witness for C10 at the whitespace-only string `" \t"` and the
two-token string `"x y"`. -/
theorem normalizeScopes_tokenization_witness :
    normalizeScopes (.str " \t") = ∅ ∧
    "" ∉ normalizeScopes (.str "x y") ∧
    normalizeScopes (.list ["openid email"]) =
      {"https://www.googleapis.com/auth/openid email"} ∧
    normalizeScopes (.str "a\tb c") =
      {"https://www.googleapis.com/auth/a",
       "https://www.googleapis.com/auth/b",
       "https://www.googleapis.com/auth/c"} :=
  normalizeScopes_tokenization " \t" "x y" (by decide)

end GoogleAuth
